import Mathlib

/-!
Trace propagation and context detachment (go-jaeger-background-demo).

Shallow embedding of `main.go` and `pkg/tracing/tracing.go`.

* A Go interface value is a record of its methods; a struct that embeds an
  interface is a record holding the embedded value, with the promoted methods
  forwarding to it.
* Spans are mutable objects behind handles.  The tracer keeps the span objects
  in a store (`TracerState`); a handle holds the index of its object.  Functions
  that mutate a span take the store and return the new one.
* The tracer itself (`Extract`, the `SpanContext` given to a new span) and the
  Go runtime (`runtime.Callers`, `FileLine`) are external to the repository and
  are parameters.
* The only observation of a context that changes with time is `Err` (and
  whether the `Done` channel is closed); these take the instant of the
  observation as an argument.
-/

namespace JaegerDemo

/-! ## Go values -/

/-- A non-nil Go `error` value. -/
structure GoError where
  msg : String
deriving DecidableEq, Repr

/-- The Go interface type `error`; `none` is the nil error. -/
abbrev error := Option GoError

/-- The `errors.New` constructor. -/
def errors.New (text : String) : GoError := ⟨text⟩

/-- A `time.Time`, as nanoseconds since the zero instant. -/
structure Time where
  ns : Nat
deriving DecidableEq, Repr

/-- The zero value of `time.Time`. -/
def Time.zero : Time := ⟨0⟩

/-- A non-nil `<-chan struct{}` used as a cancellation signal: it is never sent
on, only closed, so all that can be observed is whether it is closed at an
instant. -/
structure Chan where
  closedAt : Nat → Bool

/-- Whether a receive from the channel proceeds at instant `t`.  A receive from
a nil channel blocks forever. -/
def Chan.fires : Option Chan → Nat → Bool
  | none, _ => false
  | some c, t => c.closedAt t

/-! ## opentracing data -/

/-- The tracer's portable identity of a span. -/
structure SpanContext where
  traceID : Nat
  spanID : Nat
  sampled : Bool
  baggage : List (String × String)
deriving DecidableEq, Repr

/-- A span handle (`opentracing.Span`): the index of the span object in the
tracer's store together with the span's `SpanContext`, which is fixed when the
span is started. -/
structure Span where
  id : Nat
  context : SpanContext
deriving DecidableEq, Repr

/-- The `Context()` method of `opentracing.Span`. -/
def Span.Context (s : Span) : SpanContext := s.context

/-! ## package context -/

/-- Context keys (`interface{}` in Go): the unexported `activeSpanKey` of
opentracing and any other key. -/
inductive Key where
  | activeSpanKey
  | named (name : String)
deriving DecidableEq, Repr

/-- Context values (`interface{}` in Go): a span or some other value. -/
inductive Val where
  | span (s : Span)
  | other (v : String)
deriving DecidableEq, Repr

/-- The interface `context.Context`.  `Deadline`, `Done` and `Value` return
the same result on successive calls; `Err` is read at an instant. -/
structure Context where
  Deadline : Time × Bool
  Done : Option Chan
  Err : Nat → error
  Value : Key → Option Val

/-- The value `context.Background()`. -/
def context.Background : Context where
  Deadline := (Time.zero, false)
  Done := none
  Err := fun _ => none
  Value := fun _ => none

/-- The error `context.Canceled`. -/
def context.Canceled : GoError := ⟨"context canceled"⟩

/-- The error `context.DeadlineExceeded`. -/
def context.DeadlineExceeded : GoError := ⟨"context deadline exceeded"⟩

/-- The struct `valueCtx` of package context: `struct { Context; key, val }`. -/
structure valueCtx where
  Context : JaegerDemo.Context
  key : Key
  val : Val

/-- The method `(*valueCtx).Value`. -/
def valueCtx.Value (c : valueCtx) (key : Key) : Option Val :=
  if c.key = key then some c.val else c.Context.Value key

/-- A `valueCtx` as a `context.Context`: `Deadline`, `Done` and `Err` are
promoted from the embedded context. -/
def valueCtx.toContext (c : valueCtx) : JaegerDemo.Context where
  Deadline := c.Context.Deadline
  Done := c.Context.Done
  Err := c.Context.Err
  Value := c.Value

/-- The function `context.WithValue`. -/
def context.WithValue (parent : Context) (key : Key) (val : Val) : Context :=
  valueCtx.toContext ⟨parent, key, val⟩

/-- The context `context.WithCancel(context.Background())` whose cancel
function is called at instant `cancelAt` (`none`: never): from then on its
`Done` channel is closed and `Err` is `context.Canceled`. -/
def context.canceledAt (cancelAt : Option Nat) : Context where
  Deadline := (Time.zero, false)
  Done := some ⟨fun t => cancelAt.any (fun c => decide (c ≤ t))⟩
  Err := fun t => if cancelAt.any (fun c => decide (c ≤ t)) then some context.Canceled else none
  Value := fun _ => none

/-- The context `context.WithDeadline(context.Background(), d)` whose cancel
function is never called: from instant `d` on its `Done` channel is closed and
`Err` is `context.DeadlineExceeded`. -/
def context.deadlineAt (d : Nat) : Context where
  Deadline := (⟨d⟩, true)
  Done := some ⟨fun t => decide (d ≤ t)⟩
  Err := fun t => if d ≤ t then some context.DeadlineExceeded else none
  Value := fun _ => none

/-! ## main.go: the detached context -/

/-- The struct `valueOnlyContext`: `struct{ context.Context }`. -/
structure valueOnlyContext where
  Context : JaegerDemo.Context

/-- The method `valueOnlyContext.Deadline`: named results, bare `return`. -/
def valueOnlyContext.Deadline (_ : valueOnlyContext) : Time × Bool := (Time.zero, false)

/-- The method `valueOnlyContext.Done`. -/
def valueOnlyContext.Done (_ : valueOnlyContext) : Option Chan := none

/-- The method `valueOnlyContext.Err`. -/
def valueOnlyContext.Err (_ : valueOnlyContext) (_ : Nat) : error := none

/-- The method `Value` of `valueOnlyContext`, promoted from the embedded
context. -/
def valueOnlyContext.Value (v : valueOnlyContext) (key : Key) : Option Val :=
  v.Context.Value key

/-- A `valueOnlyContext` as a `context.Context`. -/
def valueOnlyContext.toContext (v : valueOnlyContext) : JaegerDemo.Context where
  Deadline := v.Deadline
  Done := v.Done
  Err := v.Err
  Value := v.Value

/-- The function `BackgroundContextWithValues` of main.go. -/
def BackgroundContextWithValues (ctx : Context) : Context :=
  valueOnlyContext.toContext ⟨ctx⟩

/-! ## opentracing: spans, options, the tracer -/

/-- Values of span tags (`interface{}` in Go): a string, or a span kind of
package ext. -/
inductive TagValue where
  | str (s : String)
  | spanKind (k : String)
deriving DecidableEq, Repr

/-- The constant `ext.SpanKindRPCServerEnum`. -/
def ext.SpanKindRPCServerEnum : TagValue := TagValue.spanKind "server"

/-- A `log.Field`, by the constructor of package log that made it. -/
inductive Field where
  | String (key : String) (val : String)
  | Int (key : String) (val : Int)
  | Bool (key : String) (val : Bool)
  | Error (err : error)
deriving DecidableEq, Repr

/-- The type `opentracing.SpanReferenceType`. -/
inductive SpanReferenceType where
  | ChildOfRef
  | FollowsFromRef
deriving DecidableEq, Repr

/-- The struct `opentracing.SpanReference`. -/
structure SpanReference where
  RefType : SpanReferenceType
  ReferencedContext : Option SpanContext
deriving DecidableEq, Repr

/-- The struct `opentracing.StartSpanOptions` (without `StartTime`, which no
caller here sets).  `Tags` is a map: the newest binding of a key comes first
and is the one a lookup finds. -/
structure StartSpanOptions where
  References : List SpanReference
  Tags : List (String × TagValue)
deriving DecidableEq, Repr

/-- The method `SpanReference.Apply`: a reference to a nil context is
dropped. -/
def SpanReference.Apply (r : SpanReference) (o : StartSpanOptions) : StartSpanOptions :=
  match r.ReferencedContext with
  | some _ => { o with References := o.References ++ [r] }
  | none => o

/-- The start-span options the repository passes: `opentracing.ChildOf(sc)` and
`ext.RPCServerOption(sc)`. -/
inductive StartSpanOption where
  | ChildOf (sc : Option SpanContext)
  | RPCServerOption (client : Option SpanContext)
deriving DecidableEq, Repr

/-- The method `Apply` of a start-span option.  `ChildOf(sc)` is the reference
`{ChildOfRef, sc}`; `RPCServerOption(client)` applies `ChildOf(client)` when
the client context is not nil and then sets the tag `span.kind` to `server`. -/
def StartSpanOption.Apply (opt : StartSpanOption) (o : StartSpanOptions) : StartSpanOptions :=
  match opt with
  | .ChildOf sc => SpanReference.Apply ⟨.ChildOfRef, sc⟩ o
  | .RPCServerOption client =>
    let o1 := match client with
      | some c => SpanReference.Apply ⟨.ChildOfRef, some c⟩ o
      | none => o
    { o1 with Tags := ("span.kind", ext.SpanKindRPCServerEnum) :: o1.Tags }

/-- What a tracer does first in `StartSpan`: apply the options in order to
empty `StartSpanOptions`. -/
def applyOptions (opts : List StartSpanOption) : StartSpanOptions :=
  opts.foldl (fun o opt => opt.Apply o) ⟨[], []⟩

/-- A span object in the tracer's store.  `startOptions` are the options it was
started with; `tags` holds the `SetTag` calls, newest first (last write wins
on lookup); `logs` holds the `LogFields` calls in order, one entry per call
(the timestamp the tracer adds is left out). -/
structure SpanData where
  operationName : String
  startOptions : StartSpanOptions
  tags : List (String × TagValue)
  logs : List (List Field)
  finished : Bool
deriving DecidableEq, Repr

/-- The method `Span.SetTag` on the span object. -/
def SpanData.SetTag (d : SpanData) (key : String) (value : TagValue) : SpanData :=
  { d with tags := (key, value) :: d.tags }

/-- The method `Span.LogFields` on the span object: one new log entry. -/
def SpanData.LogFields (d : SpanData) (fields : List Field) : SpanData :=
  { d with logs := d.logs ++ [fields] }

/-- The method `Span.LogKV` for one string key with a string value: the pair
becomes the field `log.String(key, value)`. -/
def SpanData.LogKV (d : SpanData) (key : String) (value : String) : SpanData :=
  d.LogFields [Field.String key value]

/-- The method `Span.Finish` on the span object. -/
def SpanData.Finish (d : SpanData) : SpanData :=
  { d with finished := true }

/-- The current value of a tag of the span object. -/
def SpanData.tag (d : SpanData) (key : String) : Option TagValue :=
  d.tags.lookup key

/-- The tracer's store of span objects; a span handle's `id` is an index. -/
abbrev TracerState := List SpanData

/-- Run a method of the span object behind a handle's index. -/
def updateSpan : TracerState → Nat → (SpanData → SpanData) → TracerState
  | [], _, _ => []
  | d :: ds, 0, f => f d :: ds
  | d :: ds, n + 1, f => d :: updateSpan ds n f

/-- The external tracer (`opentracing.GlobalTracer()`): what `Extract` returns
for a header set (a possibly nil `SpanContext` and a possibly nil error), and
the `SpanContext` it gives to the span it starts as the `n`-th one with the
given operation name and options. -/
structure Tracer where
  Extract : List (String × List String) → Option SpanContext × error
  newContext : Nat → String → StartSpanOptions → SpanContext

/-- The method `Tracer.StartSpan`: a new span object in the store, with the
options applied, and its handle. -/
def Tracer.StartSpan (tracer : Tracer) (st : TracerState) (operationName : String)
    (opts : List StartSpanOption) : Span × TracerState :=
  let o := applyOptions opts
  (⟨st.length, tracer.newContext st.length operationName o⟩,
   st ++ [⟨operationName, o, [], [], false⟩])

/-- The function `opentracing.ContextWithSpan` (for a tracer without the
`ContextWithSpanHook` extension). -/
def opentracing.ContextWithSpan (ctx : Context) (span : Span) : Context :=
  context.WithValue ctx Key.activeSpanKey (Val.span span)

/-- The function `opentracing.SpanFromContext`: the value under
`activeSpanKey` when it is a span, else nil. -/
def opentracing.SpanFromContext (ctx : Context) : Option Span :=
  match ctx.Value Key.activeSpanKey with
  | some (Val.span sp) => some sp
  | _ => none

/-- The function `opentracing.StartSpanFromContext`: when the context holds a
span, `ChildOf` that span's context is appended to the options; the new span
is bound into a context derived from `ctx`. -/
def opentracing.StartSpanFromContext (tracer : Tracer) (st : TracerState) (ctx : Context)
    (operationName : String) (opts : List StartSpanOption) :
    (Span × Context) × TracerState :=
  let opts1 := match opentracing.SpanFromContext ctx with
    | some parentSpan => opts ++ [StartSpanOption.ChildOf (some parentSpan.Context)]
    | none => opts
  let r := tracer.StartSpan st operationName opts1
  ((r.1, opentracing.ContextWithSpan ctx r.1), r.2)

/-- The options `StartSpanFromContext` passes on to the tracer when called
without options: `ChildOf` the active span of the context, if any. -/
def contextOptions (ctx : Context) : List StartSpanOption :=
  match opentracing.SpanFromContext ctx with
  | some parentSpan => [StartSpanOption.ChildOf (some parentSpan.Context)]
  | none => []

/-! ## net/http -/

/-- The struct `url.URL`, its `Path`. -/
structure URL where
  Path : String
deriving DecidableEq, Repr

/-- The struct `http.Request`: method, URL, header set and the context
attached to it (nil when none was attached). -/
structure Request where
  Method : String
  URL : URL
  Header : List (String × List String)
  ctx : Option Context

/-- The method `(*http.Request).Context`: the attached context, or the
background context. -/
def Request.Context (r : Request) : JaegerDemo.Context :=
  match r.ctx with
  | some c => c
  | none => context.Background

/-- The method `(*http.Request).WithContext`: a copy of the request with the
context replaced. -/
def Request.WithContext (r : Request) (ctx : JaegerDemo.Context) : Request :=
  { r with ctx := some ctx }

/-! ## runtime -/

/-- The Go runtime as seen from a call of `LogError`: `Callers skip` is the
list of return program counters of the stack above `skip` frames (frame 0 is
`runtime.Callers`, 1 is `LogError`, 2 is the caller of `LogError`), and
`FileLine pc` is `runtime.FuncForPC(pc).FileLine(pc)`. -/
structure Runtime where
  Callers : Nat → List Nat
  FileLine : Nat → String × Int

/-! ## pkg/tracing/tracing.go -/

/-- The function `LogError` on the span object.  `pcs` is the one-element
array after `runtime.Callers(2, pcs[:])` and `n` the number of entries
written. -/
def LogError (rt : Runtime) (span : SpanData) (err : error) : error × SpanData :=
  match err with
  | none => (none, span)
  | some e =>
    let written := (rt.Callers 2).take 1
    let n := written.length
    let pcs0 := written.headD 0
    if n < 1 then
      let span1 := span.LogFields [Field.Error (some e)]
      let span2 := span1.LogFields [Field.Error (some (errors.New "runtime.Callers failed"))]
      (some e, span2)
    else
      let fl := rt.FileLine pcs0
      (some e, span.LogFields [Field.String "filename" fl.1, Field.Int "line" fl.2,
        Field.Error (some e)])

/-- The function `annotateSpan` on the span object. -/
def annotateSpan (span : SpanData) (handlerName : String) (req : Request) : SpanData :=
  let routeTag := req.URL.Path
  let span1 := span.SetTag "method" (TagValue.str req.Method)
  let span2 := span1.SetTag "handler" (TagValue.str handlerName)
  let span3 := span2.SetTag "route" (TagValue.str routeTag)
  span3.LogKV "path" req.URL.Path

/-- The function `ExtractFromHTTPRequest`. -/
def ExtractFromHTTPRequest (tracer : Tracer) (rt : Runtime) (st : TracerState)
    (req : Request) (handlerName : String) : (Span × Request) × TracerState :=
  match tracer.Extract req.Header with
  | (_, some err) =>
    let r := opentracing.StartSpanFromContext tracer st req.Context "request" []
    let span := r.1.1
    let ctx := r.1.2
    let st1 := updateSpan r.2 span.id (fun d => annotateSpan d handlerName req)
    let st2 := updateSpan st1 span.id (fun d => (LogError rt d (some err)).2)
    ((span, req.WithContext ctx), st2)
  | (spanContext, none) =>
    let r := tracer.StartSpan st "request"
      [StartSpanOption.ChildOf spanContext, StartSpanOption.RPCServerOption spanContext]
    let span := r.1
    let st1 := updateSpan r.2 span.id (fun d => annotateSpan d handlerName req)
    ((span, req.WithContext (opentracing.ContextWithSpan req.Context span)), st1)

/-! ## main.go: the detached unit -/

/-- The function `background`.  `t1` and `t2` are the instants of its two
reads of `ctx.Err()`, before and after the sleep. -/
def background (tracer : Tracer) (st : TracerState) (ctx : Context) (t1 t2 : Nat) :
    TracerState :=
  let r := opentracing.StartSpanFromContext tracer st ctx "background" []
  let span := r.1.1
  let st1 := updateSpan r.2 span.id
    (fun d => d.LogFields [Field.Bool "canceled" (ctx.Err t1).isSome])
  let st2 := updateSpan st1 span.id
    (fun d => d.LogFields [Field.Bool "canceled" (ctx.Err t2).isSome])
  updateSpan st2 span.id SpanData.Finish

/-- The context that `tee` hands to `background`, with the span `tee` started
and the store at that point. -/
def teeContext (tracer : Tracer) (rt : Runtime) (st : TracerState) (request : Request) :
    (Span × Context) × TracerState :=
  let ctx := BackgroundContextWithValues request.Context
  let request1 := request.WithContext ctx
  let r := ExtractFromHTTPRequest tracer rt st request1 "tee"
  ((r.1.1, r.1.2.Context), r.2)

/-- The function `tee`.  The deferred `Finish` of its span runs after
`background` has returned. -/
def tee (tracer : Tracer) (rt : Runtime) (st : TracerState) (request : Request)
    (t1 t2 : Nat) : TracerState :=
  let ctx := BackgroundContextWithValues request.Context
  let request1 := request.WithContext ctx
  let r := ExtractFromHTTPRequest tracer rt st request1 "tee"
  let span := r.1.1
  let request2 := r.1.2
  let ctx1 := request2.Context
  let st1 := background tracer r.2 ctx1 t1 t2
  updateSpan st1 span.id SpanData.Finish

/-! ## Sample inputs -/

/-- The error a tracer returns when the carrier holds no span context. -/
def sample.ErrSpanContextNotFound : GoError :=
  ⟨"opentracing: SpanContext not found in Extract carrier"⟩

/-- An upstream span context. -/
def sample.upstream : SpanContext := ⟨7, 3, true, []⟩

/-- A tracer that finds the upstream span context when the header
`Uber-Trace-Id` is present and fails otherwise; the span it starts as the
`n`-th one gets span id `n + 100` in trace 1. -/
def sample.tracer : Tracer where
  Extract := fun hdr =>
    match hdr.lookup "Uber-Trace-Id" with
    | some _ => (some sample.upstream, none)
    | none => (none, some sample.ErrSpanContextNotFound)
  newContext := fun n _ _ => ⟨1, n + 100, true, []⟩

/-- A runtime that reports one caller frame, in tracing.go at line 19. -/
def sample.runtime : Runtime where
  Callers := fun _ => [4242]
  FileLine := fun _ => ("pkg/tracing/tracing.go", 19)

/-- The request `GET /widgets/42` without trace headers, on the background
context. -/
def sample.request : Request := ⟨"GET", ⟨"/widgets/42"⟩, [], some context.Background⟩

/-- The request `GET /widgets/42` carrying the upstream trace header. -/
def sample.tracedRequest : Request :=
  ⟨"GET", ⟨"/widgets/42"⟩, [("Uber-Trace-Id", ["7:3:0:1"])], some context.Background⟩

/-- A freshly started span object. -/
def sample.span : SpanData := ⟨"request", ⟨[], []⟩, [], [], false⟩

/-- What the handler of `serve` gets from `ExtractFromHTTPRequest` on the
sample request without trace headers, from an empty store. -/
def sample.served : (Span × Request) × TracerState :=
  ExtractFromHTTPRequest sample.tracer sample.runtime [] sample.request "myserve"

/-- The request `tee` passes to `ExtractFromHTTPRequest` when the handler of
`serve` gives it the request of `sample.served`. -/
def sample.teeRequest : Request :=
  sample.served.1.2.WithContext (BackgroundContextWithValues sample.served.1.2.Context)

/-! ## The span store -/

theorem updateSpan_length (st : TracerState) (i : Nat) (f : SpanData → SpanData) :
    (updateSpan st i f).length = st.length := by
  induction st generalizing i with
  | nil => rfl
  | cons d ds ih =>
    cases i with
    | zero => rfl
    | succ n => simp [updateSpan, ih]

theorem updateSpan_get_self (st : TracerState) (i : Nat) (f : SpanData → SpanData) :
    (updateSpan st i f)[i]? = (st[i]?).map f := by
  induction st generalizing i with
  | nil => rfl
  | cons d ds ih =>
    cases i with
    | zero => simp [updateSpan]
    | succ n => simp [updateSpan, ih]

theorem updateSpan_get_other (st : TracerState) (i j : Nat) (f : SpanData → SpanData)
    (h : i ≠ j) : (updateSpan st i f)[j]? = st[j]? := by
  induction st generalizing i j with
  | nil => rfl
  | cons d ds ih =>
    cases i with
    | zero =>
      cases j with
      | zero => exact absurd rfl h
      | succ m => simp [updateSpan]
    | succ n =>
      cases j with
      | zero => simp [updateSpan]
      | succ m =>
        have hnm : n ≠ m := fun e => h (by rw [e])
        simp [updateSpan, ih n m hnm]

theorem StartSpan_id (tracer : Tracer) (st : TracerState) (name : String)
    (opts : List StartSpanOption) : (tracer.StartSpan st name opts).1.id = st.length := rfl

theorem StartSpan_length (tracer : Tracer) (st : TracerState) (name : String)
    (opts : List StartSpanOption) : (tracer.StartSpan st name opts).2.length = st.length + 1 := by
  simp [Tracer.StartSpan]

theorem StartSpan_get_new (tracer : Tracer) (st : TracerState) (name : String)
    (opts : List StartSpanOption) :
    (tracer.StartSpan st name opts).2[st.length]? =
      some ⟨name, applyOptions opts, [], [], false⟩ := by
  simp [Tracer.StartSpan]

/-! ## ExtractFromHTTPRequest: the two branches -/

theorem StartSpanFromContext_eq (tracer : Tracer) (st : TracerState) (ctx : Context)
    (name : String) :
    opentracing.StartSpanFromContext tracer st ctx name [] =
      (((tracer.StartSpan st name (contextOptions ctx)).1,
        opentracing.ContextWithSpan ctx (tracer.StartSpan st name (contextOptions ctx)).1),
       (tracer.StartSpan st name (contextOptions ctx)).2) := by
  unfold opentracing.StartSpanFromContext contextOptions
  cases opentracing.SpanFromContext ctx <;> rfl

theorem ExtractFromHTTPRequest_fail (tracer : Tracer) (rt : Runtime) (st : TracerState)
    (req : Request) (handlerName : String) (sc : Option SpanContext) (e : GoError)
    (hfail : tracer.Extract req.Header = (sc, some e)) :
    ExtractFromHTTPRequest tracer rt st req handlerName =
      (((tracer.StartSpan st "request" (contextOptions req.Context)).1,
        req.WithContext (opentracing.ContextWithSpan req.Context
          (tracer.StartSpan st "request" (contextOptions req.Context)).1)),
       updateSpan
        (updateSpan (tracer.StartSpan st "request" (contextOptions req.Context)).2 st.length
          (fun d => annotateSpan d handlerName req))
        st.length (fun d => (LogError rt d (some e)).2)) := by
  simp only [ExtractFromHTTPRequest, hfail, StartSpanFromContext_eq, StartSpan_id]

theorem ExtractFromHTTPRequest_ok (tracer : Tracer) (rt : Runtime) (st : TracerState)
    (req : Request) (handlerName : String) (sc : Option SpanContext)
    (hok : tracer.Extract req.Header = (sc, none)) :
    ExtractFromHTTPRequest tracer rt st req handlerName =
      (((tracer.StartSpan st "request"
          [StartSpanOption.ChildOf sc, StartSpanOption.RPCServerOption sc]).1,
        req.WithContext (opentracing.ContextWithSpan req.Context
          (tracer.StartSpan st "request"
            [StartSpanOption.ChildOf sc, StartSpanOption.RPCServerOption sc]).1)),
       updateSpan
        (tracer.StartSpan st "request"
          [StartSpanOption.ChildOf sc, StartSpanOption.RPCServerOption sc]).2 st.length
          (fun d => annotateSpan d handlerName req)) := by
  simp only [ExtractFromHTTPRequest, hok, StartSpan_id]

/-- The span object behind the returned handle, in the failure branch. -/
theorem ExtractFromHTTPRequest_fail_object (tracer : Tracer) (rt : Runtime)
    (st : TracerState) (req : Request) (handlerName : String) (sc : Option SpanContext)
    (e : GoError) (hfail : tracer.Extract req.Header = (sc, some e)) :
    (ExtractFromHTTPRequest tracer rt st req handlerName).2[st.length]? =
      some (LogError rt (annotateSpan
        ⟨"request", applyOptions (contextOptions req.Context), [], [], false⟩
        handlerName req) (some e)).2 := by
  rw [ExtractFromHTTPRequest_fail tracer rt st req handlerName sc e hfail]
  simp only [updateSpan_get_self, StartSpan_get_new, Option.map_some']

/-- The span object behind the returned handle, in the success branch. -/
theorem ExtractFromHTTPRequest_ok_object (tracer : Tracer) (rt : Runtime)
    (st : TracerState) (req : Request) (handlerName : String) (sc : Option SpanContext)
    (hok : tracer.Extract req.Header = (sc, none)) :
    (ExtractFromHTTPRequest tracer rt st req handlerName).2[st.length]? =
      some (annotateSpan
        ⟨"request", applyOptions
          [StartSpanOption.ChildOf sc, StartSpanOption.RPCServerOption sc], [], [], false⟩
        handlerName req) := by
  rw [ExtractFromHTTPRequest_ok tracer rt st req handlerName sc hok]
  simp only [updateSpan_get_self, StartSpan_get_new, Option.map_some']

theorem ExtractFromHTTPRequest_id (tracer : Tracer) (rt : Runtime) (st : TracerState)
    (req : Request) (handlerName : String) :
    (ExtractFromHTTPRequest tracer rt st req handlerName).1.1.id = st.length := by
  rcases h : tracer.Extract req.Header with ⟨sc, _ | e⟩
  · rw [ExtractFromHTTPRequest_ok tracer rt st req handlerName sc h]; rfl
  · rw [ExtractFromHTTPRequest_fail tracer rt st req handlerName sc e h]; rfl

theorem ExtractFromHTTPRequest_length (tracer : Tracer) (rt : Runtime) (st : TracerState)
    (req : Request) (handlerName : String) :
    (ExtractFromHTTPRequest tracer rt st req handlerName).2.length = st.length + 1 := by
  rcases h : tracer.Extract req.Header with ⟨sc, _ | e⟩
  · rw [ExtractFromHTTPRequest_ok tracer rt st req handlerName sc h]
    simp only [updateSpan_length, StartSpan_length]
  · rw [ExtractFromHTTPRequest_fail tracer rt st req handlerName sc e h]
    simp only [updateSpan_length, StartSpan_length]

theorem ExtractFromHTTPRequest_request_context (tracer : Tracer) (rt : Runtime)
    (st : TracerState) (req : Request) (handlerName : String) :
    (ExtractFromHTTPRequest tracer rt st req handlerName).1.2.Context =
      opentracing.ContextWithSpan req.Context
        (ExtractFromHTTPRequest tracer rt st req handlerName).1.1 := by
  rcases h : tracer.Extract req.Header with ⟨sc, _ | e⟩
  · rw [ExtractFromHTTPRequest_ok tracer rt st req handlerName sc h]; rfl
  · rw [ExtractFromHTTPRequest_fail tracer rt st req handlerName sc e h]; rfl

/-! ## LogError and annotateSpan on the span object -/

/-- With a non-nil error, `LogError` returns the error and only appends log
entries; one of them holds the error, and when the caller frame is captured
the only new entry holds file name, line and error. -/
theorem LogError_some (rt : Runtime) (span : SpanData) (e : GoError) :
    ∃ extra : List (List Field),
      LogError rt span (some e) = (some e, { span with logs := span.logs ++ extra }) ∧
      (∃ entry ∈ extra, Field.Error (some e) ∈ entry) ∧
      (∀ (pc : Nat) (rest : List Nat), rt.Callers 2 = pc :: rest →
        extra = [[Field.String "filename" (rt.FileLine pc).1,
          Field.Int "line" (rt.FileLine pc).2, Field.Error (some e)]]) ∧
      (rt.Callers 2 = [] →
        extra = [[Field.Error (some e)],
          [Field.Error (some (errors.New "runtime.Callers failed"))]]) := by
  cases hc : rt.Callers 2 with
  | nil =>
    refine ⟨[[Field.Error (some e)],
      [Field.Error (some (errors.New "runtime.Callers failed"))]], ?_, ?_, ?_, fun _ => rfl⟩
    · simp [LogError, hc, SpanData.LogFields]
    · exact ⟨_, List.mem_cons_self _ _, List.mem_cons_self _ _⟩
    · intro pc rest h; cases h
  | cons pc rest =>
    refine ⟨[[Field.String "filename" (rt.FileLine pc).1,
      Field.Int "line" (rt.FileLine pc).2, Field.Error (some e)]], ?_, ?_, ?_, ?_⟩
    · simp [LogError, hc, SpanData.LogFields]
    · exact ⟨_, List.mem_cons_self _ _, by simp⟩
    · intro pc2 rest2 h
      cases h
      rfl
    · intro h; cases h

theorem annotateSpan_eq (span : SpanData) (handlerName : String) (req : Request) :
    annotateSpan span handlerName req =
      { span with
        tags := ("route", TagValue.str req.URL.Path) :: ("handler", TagValue.str handlerName) ::
          ("method", TagValue.str req.Method) :: span.tags
        logs := span.logs ++ [[Field.String "path" req.URL.Path]] } := rfl

/-- The span object behind the handle that `ExtractFromHTTPRequest` returns:
in either branch a span named `request` with the three tags of `annotateSpan`
and the path entry as its first log entry; further log entries follow in the
failure branch only. -/
theorem ExtractFromHTTPRequest_object (tracer : Tracer) (rt : Runtime) (st : TracerState)
    (req : Request) (handlerName : String) :
    ∃ (o : StartSpanOptions) (extra : List (List Field)),
      (ExtractFromHTTPRequest tracer rt st req handlerName).2[
        (ExtractFromHTTPRequest tracer rt st req handlerName).1.1.id]? =
        some ⟨"request", o,
          [("route", TagValue.str req.URL.Path), ("handler", TagValue.str handlerName),
            ("method", TagValue.str req.Method)],
          [Field.String "path" req.URL.Path] :: extra, false⟩ := by
  rw [ExtractFromHTTPRequest_id]
  rcases h : tracer.Extract req.Header with ⟨sc, _ | e⟩
  · refine ⟨applyOptions [StartSpanOption.ChildOf sc, StartSpanOption.RPCServerOption sc],
      [], ?_⟩
    rw [ExtractFromHTTPRequest_ok_object tracer rt st req handlerName sc h]
    rfl
  · obtain ⟨extra, hx, -⟩ := LogError_some rt (annotateSpan
      ⟨"request", applyOptions (contextOptions req.Context), [], [], false⟩
      handlerName req) e
    refine ⟨applyOptions (contextOptions req.Context), extra, ?_⟩
    rw [ExtractFromHTTPRequest_fail_object tracer rt st req handlerName sc e h, hx]
    rfl

/-! ## Context detachment -/

/-- C1: for every parent context `C`, the context returned by
`BackgroundContextWithValues C` reports no deadline (zero time, ok false),
returns a nil `Done` channel, which never fires, and returns a nil `Err` at
every instant; the three observations are the same for any two parents. -/
theorem BackgroundContextWithValues_lifecycle (C : Context) :
    (BackgroundContextWithValues C).Deadline = (Time.zero, false) ∧
    (BackgroundContextWithValues C).Done = none ∧
    (∀ t : Nat, Chan.fires (BackgroundContextWithValues C).Done t = false) ∧
    (∀ t : Nat, (BackgroundContextWithValues C).Err t = none) ∧
    (∀ C2 : Context,
      (BackgroundContextWithValues C).Deadline = (BackgroundContextWithValues C2).Deadline ∧
      (BackgroundContextWithValues C).Done = (BackgroundContextWithValues C2).Done ∧
      (BackgroundContextWithValues C).Err = (BackgroundContextWithValues C2).Err) :=
  ⟨rfl, rfl, fun _ => rfl, fun _ => rfl, fun _ => ⟨rfl, rfl, rfl⟩⟩

/-- C2: for every parent context `C` and every key `k`, the value lookup of
`BackgroundContextWithValues C` at `k` equals the lookup of `C` at `k`. -/
theorem BackgroundContextWithValues_Value (C : Context) (k : Key) :
    (BackgroundContextWithValues C).Value k = C.Value k := rfl

/-- A parent canceled at instant 5 reports `context.Canceled` at instant 9
and its `Done` channel has fired, a parent with deadline 5 reports
`context.DeadlineExceeded` at instant 9, while the contexts detached from them
report no error, no deadline and a channel that has not fired. -/
theorem detached_from_done_parent :
    (context.canceledAt (some 5)).Err 9 = some context.Canceled ∧
    Chan.fires (context.canceledAt (some 5)).Done 9 = true ∧
    (BackgroundContextWithValues (context.canceledAt (some 5))).Err 9 = none ∧
    Chan.fires (BackgroundContextWithValues (context.canceledAt (some 5))).Done 9 = false ∧
    (context.deadlineAt 5).Err 9 = some context.DeadlineExceeded ∧
    (context.deadlineAt 5).Deadline = (⟨5⟩, true) ∧
    (BackgroundContextWithValues (context.deadlineAt 5)).Err 9 = none ∧
    (BackgroundContextWithValues (context.deadlineAt 5)).Deadline = (Time.zero, false) := by
  refine ⟨by decide, by decide, rfl, rfl, by decide, rfl, rfl, rfl⟩

/-! ## LogError -/

/-- C4: for every span and every error value `err`, `LogError` returns `err`
itself; for the nil error it returns nil and leaves the span as it was (no
new log entry, no new tag); and in no case does it change the tags. -/
theorem LogError_returns_err (rt : Runtime) (span : SpanData) (err : error) :
    (LogError rt span err).1 = err ∧
    LogError rt span none = (none, span) ∧
    (LogError rt span none).2.logs = span.logs ∧
    (LogError rt span err).2.tags = span.tags := by
  refine ⟨?_, rfl, rfl, ?_⟩
  · cases err with
    | none => rfl
    | some e =>
      simp only [LogError]
      split <;> rfl
  · cases err with
    | none => rfl
    | some e =>
      simp only [LogError]
      split <;> rfl

/-- C5: for every span and every non-nil error `e`, `LogError` adds exactly
one new log entry to the span, and that entry holds a non-empty file name, a
positive line number and the error.  The hypotheses are what the Go runtime
gives at every call of `LogError`: `runtime.Callers(2, ...)` writes the frame
`pc` above `LogError`, and `FileLine` reports a file name and a line for
it. -/
theorem LogError_entry (rt : Runtime) (span : SpanData) (e : GoError) (pc : Nat)
    (rest : List Nat) (hframe : rt.Callers 2 = pc :: rest)
    (hfile : (rt.FileLine pc).1 ≠ "") (hline : 0 < (rt.FileLine pc).2) :
    ∃ (entry : List Field) (file : String) (line : Int),
      (LogError rt span (some e)).2.logs = span.logs ++ [entry] ∧
      entry = [Field.String "filename" file, Field.Int "line" line, Field.Error (some e)] ∧
      file = (rt.FileLine pc).1 ∧ line = (rt.FileLine pc).2 ∧
      file ≠ "" ∧ 0 < line := by
  refine ⟨_, (rt.FileLine pc).1, (rt.FileLine pc).2, ?_, rfl, rfl, rfl, hfile, hline⟩
  simp [LogError, hframe, SpanData.LogFields]

/-- Witness of `LogError_entry` on the sample runtime: one new entry, with
file `pkg/tracing/tracing.go` and line 19. -/
theorem LogError_entry_witness :
    (sample.runtime.Callers 2 = 4242 :: [] ∧ (sample.runtime.FileLine 4242).1 ≠ "" ∧
      0 < (sample.runtime.FileLine 4242).2) ∧
    ∃ (entry : List Field) (file : String) (line : Int),
      (LogError sample.runtime sample.span (some sample.ErrSpanContextNotFound)).2.logs =
        sample.span.logs ++ [entry] ∧
      entry = [Field.String "filename" file, Field.Int "line" line,
        Field.Error (some sample.ErrSpanContextNotFound)] ∧
      file = (sample.runtime.FileLine 4242).1 ∧ line = (sample.runtime.FileLine 4242).2 ∧
      file ≠ "" ∧ 0 < line :=
  ⟨⟨rfl, by decide, by decide⟩,
    LogError_entry sample.runtime sample.span sample.ErrSpanContextNotFound 4242 [] rfl
      (by decide) (by decide)⟩

/-! ## The detached unit -/

theorem background_object (tracer : Tracer) (st : TracerState) (ctx : Context)
    (t1 t2 : Nat) :
    (background tracer st ctx t1 t2)[st.length]? =
      some ⟨"background", applyOptions (contextOptions ctx), [],
        [[Field.Bool "canceled" (ctx.Err t1).isSome],
         [Field.Bool "canceled" (ctx.Err t2).isSome]], true⟩ := by
  simp only [background, StartSpanFromContext_eq, StartSpan_id, updateSpan_get_self,
    StartSpan_get_new, Option.map_some', SpanData.LogFields, SpanData.Finish,
    List.nil_append, List.cons_append]

/-- C3: for every request passed to `tee` (whatever the state of its context)
and either result of `Extract`, the context that `tee` hands to `background`
reports a nil `Err` at every instant, `tee` runs `background` on that context,
and the two `canceled` log fields that `background` records on its span, at
any two instants `t1` and `t2`, are both false. -/
theorem tee_background_not_canceled (tracer : Tracer) (rt : Runtime) (st : TracerState)
    (request : Request) (t1 t2 : Nat) :
    (∀ t : Nat, (teeContext tracer rt st request).1.2.Err t = none) ∧
    tee tracer rt st request t1 t2 =
      updateSpan
        (background tracer (teeContext tracer rt st request).2
          (teeContext tracer rt st request).1.2 t1 t2)
        (teeContext tracer rt st request).1.1.id SpanData.Finish ∧
    ∃ d : SpanData, (tee tracer rt st request t1 t2)[st.length + 1]? = some d ∧
      d.operationName = "background" ∧
      d.logs = [[Field.Bool "canceled" false], [Field.Bool "canceled" false]] := by
  have herr : ∀ t : Nat, (teeContext tracer rt st request).1.2.Err t = none := by
    intro t
    simp only [teeContext]
    rw [ExtractFromHTTPRequest_request_context]
    rfl
  refine ⟨herr, rfl, ?_⟩
  have hid : (teeContext tracer rt st request).1.1.id = st.length := by
    simp only [teeContext, ExtractFromHTTPRequest_id]
  have hlen : (teeContext tracer rt st request).2.length = st.length + 1 := by
    simp only [teeContext, ExtractFromHTTPRequest_length]
  have htee : tee tracer rt st request t1 t2 =
      updateSpan
        (background tracer (teeContext tracer rt st request).2
          (teeContext tracer rt st request).1.2 t1 t2)
        (teeContext tracer rt st request).1.1.id SpanData.Finish := rfl
  have hobj := background_object tracer (teeContext tracer rt st request).2
    (teeContext tracer rt st request).1.2 t1 t2
  rw [hlen, herr t1, herr t2] at hobj
  rw [htee, hid, updateSpan_get_other _ _ _ _ (Nat.ne_of_lt (Nat.lt_succ_self st.length)), hobj]
  exact ⟨_, rfl, rfl, rfl⟩

/-! ## The extraction protocol -/

/-- C6, as the code has it: for every request on which `Extract` fails with
error `e`, `ExtractFromHTTPRequest` starts a span named `request` through
`StartSpanFromContext`: a root span (no reference) when the context of the
request holds no active span, a `ChildOf` the active span of that context
otherwise; and it records `e` in a log entry of that span, together with file
name and line when the caller frame is captured. -/
theorem ExtractFromHTTPRequest_failure_span (tracer : Tracer) (rt : Runtime)
    (st : TracerState) (req : Request) (handlerName : String) (sc : Option SpanContext)
    (e : GoError) (hfail : tracer.Extract req.Header = (sc, some e)) :
    ∃ d : SpanData,
      (ExtractFromHTTPRequest tracer rt st req handlerName).2[
        (ExtractFromHTTPRequest tracer rt st req handlerName).1.1.id]? = some d ∧
      d.operationName = "request" ∧
      d.startOptions.References =
        (match opentracing.SpanFromContext req.Context with
          | some parentSpan => [⟨SpanReferenceType.ChildOfRef, some parentSpan.Context⟩]
          | none => []) ∧
      (∃ entry ∈ d.logs, Field.Error (some e) ∈ entry) ∧
      (∀ (pc : Nat) (rest : List Nat), rt.Callers 2 = pc :: rest →
        [Field.String "filename" (rt.FileLine pc).1, Field.Int "line" (rt.FileLine pc).2,
          Field.Error (some e)] ∈ d.logs) := by
  obtain ⟨extra, hx, ⟨entry, hmem, herr⟩, hframe, -⟩ := LogError_some rt (annotateSpan
    ⟨"request", applyOptions (contextOptions req.Context), [], [], false⟩ handlerName req) e
  rw [ExtractFromHTTPRequest_id,
    ExtractFromHTTPRequest_fail_object tracer rt st req handlerName sc e hfail, hx]
  refine ⟨_, rfl, rfl, ?_, ⟨entry, List.mem_append_right _ hmem, herr⟩, ?_⟩
  · simp only [annotateSpan_eq, contextOptions]
    cases opentracing.SpanFromContext req.Context <;> rfl
  · intro pc rest hc
    rw [hframe pc rest hc]
    exact List.mem_append_right _ (List.mem_cons_self _ _)

/-- Witness of `ExtractFromHTTPRequest_failure_span`: the sample request
without trace headers. -/
theorem ExtractFromHTTPRequest_failure_span_witness :
    sample.tracer.Extract sample.request.Header = (none, some sample.ErrSpanContextNotFound) ∧
    ∃ d : SpanData,
      (ExtractFromHTTPRequest sample.tracer sample.runtime [] sample.request "myserve").2[
        (ExtractFromHTTPRequest sample.tracer sample.runtime [] sample.request
          "myserve").1.1.id]? = some d ∧
      d.operationName = "request" ∧
      d.startOptions.References =
        (match opentracing.SpanFromContext sample.request.Context with
          | some parentSpan => [⟨SpanReferenceType.ChildOfRef, some parentSpan.Context⟩]
          | none => []) ∧
      (∃ entry ∈ d.logs, Field.Error (some sample.ErrSpanContextNotFound) ∈ entry) ∧
      (∀ (pc : Nat) (rest : List Nat), sample.runtime.Callers 2 = pc :: rest →
        [Field.String "filename" (sample.runtime.FileLine pc).1,
          Field.Int "line" (sample.runtime.FileLine pc).2,
          Field.Error (some sample.ErrSpanContextNotFound)] ∈ d.logs) :=
  ⟨rfl, ExtractFromHTTPRequest_failure_span sample.tracer sample.runtime [] sample.request
    "myserve" none sample.ErrSpanContextNotFound rfl⟩

/-- C6 fails as stated: the handler of `serve` extracts from the sample
request without trace headers and passes the returned request to `tee`;
`Extract` fails again on the request `tee` extracts from, and the span started
there is not a root span: it has a `ChildOf` reference to the span of the
handler, which the context of the request holds. -/
theorem ExtractFromHTTPRequest_failure_not_root :
    sample.tracer.Extract sample.teeRequest.Header =
      (none, some sample.ErrSpanContextNotFound) ∧
    opentracing.SpanFromContext sample.teeRequest.Context = some sample.served.1.1 ∧
    ((ExtractFromHTTPRequest sample.tracer sample.runtime sample.served.2 sample.teeRequest
        "tee").2[(ExtractFromHTTPRequest sample.tracer sample.runtime sample.served.2
          sample.teeRequest "tee").1.1.id]?).map
        (fun d => (d.operationName, d.startOptions.References)) =
      some ("request",
        [⟨SpanReferenceType.ChildOfRef, some sample.served.1.1.Context⟩]) ∧
    (teeContext sample.tracer sample.runtime sample.served.2 sample.served.1.2).2 =
      (ExtractFromHTTPRequest sample.tracer sample.runtime sample.served.2 sample.teeRequest
        "tee").2 := by
  refine ⟨rfl, by decide, by decide, rfl⟩

/-- C7: for every request on which `Extract` succeeds with span context `sc`,
`ExtractFromHTTPRequest` starts a span named `request` with the options
`ChildOf(sc)` and `RPCServerOption(sc)`: its references are not empty and each
is `ChildOf` exactly `sc`, its start tag `span.kind` is the RPC-server kind,
and no log entry of the span holds an error. -/
theorem ExtractFromHTTPRequest_success_span (tracer : Tracer) (rt : Runtime)
    (st : TracerState) (req : Request) (handlerName : String) (sc : SpanContext)
    (hok : tracer.Extract req.Header = (some sc, none)) :
    ∃ d : SpanData,
      (ExtractFromHTTPRequest tracer rt st req handlerName).2[
        (ExtractFromHTTPRequest tracer rt st req handlerName).1.1.id]? = some d ∧
      d.operationName = "request" ∧
      d.startOptions = applyOptions
        [StartSpanOption.ChildOf (some sc), StartSpanOption.RPCServerOption (some sc)] ∧
      d.startOptions.References ≠ [] ∧
      (∀ r ∈ d.startOptions.References, r = ⟨SpanReferenceType.ChildOfRef, some sc⟩) ∧
      d.startOptions.Tags.lookup "span.kind" = some ext.SpanKindRPCServerEnum ∧
      (∀ entry ∈ d.logs, ∀ err : error, Field.Error err ∉ entry) := by
  rw [ExtractFromHTTPRequest_id,
    ExtractFromHTTPRequest_ok_object tracer rt st req handlerName (some sc) hok]
  refine ⟨_, rfl, rfl, rfl, ?_, ?_, ?_, ?_⟩
  · simp [annotateSpan_eq, applyOptions, StartSpanOption.Apply, SpanReference.Apply]
  · intro r hr
    simp [annotateSpan_eq, applyOptions, StartSpanOption.Apply, SpanReference.Apply] at hr
    exact hr
  · simp [annotateSpan_eq, applyOptions, StartSpanOption.Apply, SpanReference.Apply,
      List.lookup]
  · intro entry hentry err
    simp [annotateSpan_eq, SpanData.LogKV, SpanData.LogFields] at hentry
    subst hentry
    simp

/-- Witness of `ExtractFromHTTPRequest_success_span`: the sample request that
carries the upstream trace header. -/
theorem ExtractFromHTTPRequest_success_span_witness :
    sample.tracer.Extract sample.tracedRequest.Header = (some sample.upstream, none) ∧
    ∃ d : SpanData,
      (ExtractFromHTTPRequest sample.tracer sample.runtime [] sample.tracedRequest
        "myserve").2[(ExtractFromHTTPRequest sample.tracer sample.runtime []
          sample.tracedRequest "myserve").1.1.id]? = some d ∧
      d.operationName = "request" ∧
      d.startOptions = applyOptions
        [StartSpanOption.ChildOf (some sample.upstream),
          StartSpanOption.RPCServerOption (some sample.upstream)] ∧
      d.startOptions.References ≠ [] ∧
      (∀ r ∈ d.startOptions.References,
        r = ⟨SpanReferenceType.ChildOfRef, some sample.upstream⟩) ∧
      d.startOptions.Tags.lookup "span.kind" = some ext.SpanKindRPCServerEnum ∧
      (∀ entry ∈ d.logs, ∀ err : error, Field.Error err ∉ entry) :=
  ⟨by decide, ExtractFromHTTPRequest_success_span sample.tracer sample.runtime []
    sample.tracedRequest "myserve" sample.upstream (by decide)⟩

/-- C8: for every request and handler name, in both branches, the request
that `ExtractFromHTTPRequest` returns carries the context of the input request
extended by one binding: its active span is the span returned alongside it,
every other key resolves as in the context of the input request, and
deadline, `Done` channel and `Err` are those of the input context. -/
theorem ExtractFromHTTPRequest_context (tracer : Tracer) (rt : Runtime) (st : TracerState)
    (req : Request) (handlerName : String) :
    (ExtractFromHTTPRequest tracer rt st req handlerName).1.2.Context =
      context.WithValue req.Context Key.activeSpanKey
        (Val.span (ExtractFromHTTPRequest tracer rt st req handlerName).1.1) ∧
    opentracing.SpanFromContext (ExtractFromHTTPRequest tracer rt st req handlerName).1.2.Context =
      some (ExtractFromHTTPRequest tracer rt st req handlerName).1.1 ∧
    (∀ k : Key, k ≠ Key.activeSpanKey →
      (ExtractFromHTTPRequest tracer rt st req handlerName).1.2.Context.Value k =
        req.Context.Value k) ∧
    (ExtractFromHTTPRequest tracer rt st req handlerName).1.2.Context.Deadline =
      req.Context.Deadline ∧
    (ExtractFromHTTPRequest tracer rt st req handlerName).1.2.Context.Done =
      req.Context.Done ∧
    (ExtractFromHTTPRequest tracer rt st req handlerName).1.2.Context.Err =
      req.Context.Err := by
  rw [ExtractFromHTTPRequest_request_context]
  refine ⟨rfl, ?_, ?_, rfl, rfl, rfl⟩
  · simp [opentracing.SpanFromContext, opentracing.ContextWithSpan, context.WithValue,
      valueCtx.toContext, valueCtx.Value]
  · intro k hk
    simp [opentracing.ContextWithSpan, context.WithValue, valueCtx.toContext, valueCtx.Value,
      Ne.symm hk]

/-- C9: for every request and handler name `h`, in both branches, the span
that `ExtractFromHTTPRequest` returns has tag `method` equal to the method of
the request, tag `handler` equal to `h`, tag `route` equal to the raw URL
path, and a log entry `path` with the raw URL path; so `GET /widgets/42` with
handler `myserve` gives `GET`, `myserve`, `/widgets/42` and `/widgets/42`. -/
theorem ExtractFromHTTPRequest_annotations (tracer : Tracer) (rt : Runtime)
    (st : TracerState) (req : Request) (handlerName : String) :
    (∃ d : SpanData,
      (ExtractFromHTTPRequest tracer rt st req handlerName).2[
        (ExtractFromHTTPRequest tracer rt st req handlerName).1.1.id]? = some d ∧
      d.tag "method" = some (TagValue.str req.Method) ∧
      d.tag "handler" = some (TagValue.str handlerName) ∧
      d.tag "route" = some (TagValue.str req.URL.Path) ∧
      [Field.String "path" req.URL.Path] ∈ d.logs) ∧
    (∀ (header : List (String × List String)) (ctx : Option Context),
      ∃ d : SpanData,
        (ExtractFromHTTPRequest tracer rt st ⟨"GET", ⟨"/widgets/42"⟩, header, ctx⟩
          "myserve").2[(ExtractFromHTTPRequest tracer rt st
            ⟨"GET", ⟨"/widgets/42"⟩, header, ctx⟩ "myserve").1.1.id]? = some d ∧
        d.tag "method" = some (TagValue.str "GET") ∧
        d.tag "handler" = some (TagValue.str "myserve") ∧
        d.tag "route" = some (TagValue.str "/widgets/42") ∧
        [Field.String "path" "/widgets/42"] ∈ d.logs) := by
  have key : ∀ (r : Request) (h : String), ∃ d : SpanData,
      (ExtractFromHTTPRequest tracer rt st r h).2[
        (ExtractFromHTTPRequest tracer rt st r h).1.1.id]? = some d ∧
      d.tag "method" = some (TagValue.str r.Method) ∧
      d.tag "handler" = some (TagValue.str h) ∧
      d.tag "route" = some (TagValue.str r.URL.Path) ∧
      [Field.String "path" r.URL.Path] ∈ d.logs := by
    intro r h
    obtain ⟨o, extra, hobj⟩ := ExtractFromHTTPRequest_object tracer rt st r h
    refine ⟨_, hobj, ?_, ?_, ?_, List.mem_cons_self _ _⟩
    · simp [SpanData.tag, List.lookup]
    · simp [SpanData.tag, List.lookup]
    · simp [SpanData.tag, List.lookup]
  exact ⟨key req handlerName, fun header ctx => key ⟨"GET", ⟨"/widgets/42"⟩, header, ctx⟩ "myserve"⟩

/-- C10, as the code has it: for every request and every handler name, the
span that `ExtractFromHTTPRequest` returns has the tags `method`, `handler`
and `route` all set, to the method of the request, the handler name and the
raw URL path; each tag by itself is non-empty exactly when its input is
non-empty. -/
theorem ExtractFromHTTPRequest_tags_nonempty (tracer : Tracer) (rt : Runtime)
    (st : TracerState) (req : Request) (handlerName : String) :
    ∃ d : SpanData,
      (ExtractFromHTTPRequest tracer rt st req handlerName).2[
        (ExtractFromHTTPRequest tracer rt st req handlerName).1.1.id]? = some d ∧
      d.tag "method" = some (TagValue.str req.Method) ∧
      d.tag "handler" = some (TagValue.str handlerName) ∧
      d.tag "route" = some (TagValue.str req.URL.Path) ∧
      (d.tag "method" ≠ some (TagValue.str "") ↔ req.Method ≠ "") ∧
      (d.tag "handler" ≠ some (TagValue.str "") ↔ handlerName ≠ "") ∧
      (d.tag "route" ≠ some (TagValue.str "") ↔ req.URL.Path ≠ "") := by
  obtain ⟨o, extra, hobj⟩ := ExtractFromHTTPRequest_object tracer rt st req handlerName
  refine ⟨_, hobj, ?_, ?_, ?_, ?_, ?_, ?_⟩ <;> simp [SpanData.tag, List.lookup]

/-- Witness of `ExtractFromHTTPRequest_tags_nonempty`: for the sample request
with handler name `myserve` the three inputs are non-empty, and so are the
three tags. -/
theorem ExtractFromHTTPRequest_tags_nonempty_witness :
    (sample.request.Method ≠ "" ∧ "myserve" ≠ "" ∧ sample.request.URL.Path ≠ "") ∧
    ∃ d : SpanData,
      (ExtractFromHTTPRequest sample.tracer sample.runtime [] sample.request "myserve").2[
        (ExtractFromHTTPRequest sample.tracer sample.runtime [] sample.request
          "myserve").1.1.id]? = some d ∧
      d.tag "method" = some (TagValue.str "GET") ∧
      d.tag "handler" = some (TagValue.str "myserve") ∧
      d.tag "route" = some (TagValue.str "/widgets/42") ∧
      d.tag "method" ≠ some (TagValue.str "") ∧
      d.tag "handler" ≠ some (TagValue.str "") ∧
      d.tag "route" ≠ some (TagValue.str "") :=
  ⟨⟨by decide, by decide, by decide⟩,
    match ExtractFromHTTPRequest_tags_nonempty sample.tracer sample.runtime [] sample.request
      "myserve" with
    | ⟨d, hd, hm, hh, hr, em, eh, er⟩ =>
      ⟨d, hd, hm, hh, hr, em.2 (by decide), eh.2 (by decide), er.2 (by decide)⟩⟩

/-- C10 fails as stated: with the empty handler name, the tag `handler` of the
span that `ExtractFromHTTPRequest` returns for the sample request is the empty
string. -/
theorem ExtractFromHTTPRequest_empty_handler_tag :
    ((ExtractFromHTTPRequest sample.tracer sample.runtime [] sample.request "").2[
      (ExtractFromHTTPRequest sample.tracer sample.runtime [] sample.request
        "").1.1.id]?).bind (fun d => d.tag "handler") = some (TagValue.str "") := by
  decide

end JaegerDemo
